import Mathlib

/-!
Verification of the social/engagement consistency engine of the
Omnipedia topic/resource platform: follow/unfollow and bookmark
operations on User records (userController) and the lazy Vote tally
read path (topicController.getTopicBySlug).

The store is modelled as an association list from ids to records;
`findById` is the store lookup and `saveUser` writes a document back
under its id, as Mongoose `findById` / `document.save()` do.
-/

namespace Omnipedia

/-- A User document: the three id-list fields the engine mutates
(`followedUsers`, `followers`, `bookmarkedResources` in models/User). -/
structure UserRec where
  followedUsers : List Nat
  followers : List Nat
  bookmarkedResources : List Nat
deriving DecidableEq

/-- The User collection: id / document pairs. -/
abbrev Store := List (Nat × UserRec)

/-- `User.findById`: first record stored under the id, if any. -/
def findById (s : Store) (i : Nat) : Option UserRec :=
  (s.find? (fun p => p.1 = i)).map Prod.snd

/-- `document.save()`: persist the document back under its id. -/
def saveUser (s : Store) (i : Nat) (u : UserRec) : Store :=
  s.map (fun p => if p.1 = i then (i, u) else p)

/-- Well-formed collection: each id stored at most once (Mongo ids are unique). -/
def storeWF (s : Store) : Prop := (s.map Prod.fst).Nodup

/-- Outcome of a follow/unfollow request, mirroring the HTTP responses of
userController: 200 with the two lists (`followedUsers` is absent when the
authenticated document was absent, as `req.user?.followedUsers` would be),
400, or 404. -/
inductive FollowResult where
  | ok (followedUsers : Option (List Nat)) (followers : List Nat)
  | badRequest (msg : String)
  | notFound (msg : String)
deriving DecidableEq

/-- Side 1 of followUser (userController lines 133-137): append the target to
the actor's `followedUsers` when absent, then save; returns the in-memory
actor document and the updated store. -/
def followSide1 (s : Store) (currentUserId userIdToFollow : Nat) :
    Option UserRec × Store :=
  match findById s currentUserId with
  | none => (none, s)
  | some u =>
    if userIdToFollow ∈ u.followedUsers then (some u, s)
    else
      let u2 := { u with followedUsers := u.followedUsers ++ [userIdToFollow] }
      (some u2, saveUser s currentUserId u2)

/-- Side 2 of followUser (userController lines 139-143): append the actor to
the target's `followers` when absent, then save. `userToFollow` is the
document fetched before side 1 ran, exactly as in the source. -/
def followSide2 (s : Store) (currentUserId userIdToFollow : Nat)
    (userToFollow : UserRec) : UserRec × Store :=
  if currentUserId ∈ userToFollow.followers then (userToFollow, s)
  else
    let t2 := { userToFollow with followers := userToFollow.followers ++ [currentUserId] }
    (t2, saveUser s userIdToFollow t2)

/-- userController.followUser: reject a missing body id (400), a self-follow
(400), a missing target (404); otherwise update both sides and answer 200
with the two lists. -/
def followUser (s : Store) (currentUserId : Nat) (body : Option Nat) :
    FollowResult × Store :=
  match body with
  | none => (.badRequest "User ID to follow is required", s)
  | some userIdToFollow =>
    if userIdToFollow = currentUserId then
      (.badRequest "You cannot follow yourself", s)
    else
      match findById s userIdToFollow with
      | none => (.notFound "User to follow not found", s)
      | some userToFollow =>
        let r1 := followSide1 s currentUserId userIdToFollow
        let r2 := followSide2 r1.2 currentUserId userIdToFollow userToFollow
        (.ok (r1.1.map UserRec.followedUsers) r2.1.followers, r2.2)

/-- Side 1 of unfollowUser (userController lines 174-180): filter the target
out of the actor's `followedUsers` when present, then save. -/
def unfollowSide1 (s : Store) (currentUserId userIdToUnfollow : Nat) :
    Option UserRec × Store :=
  match findById s currentUserId with
  | none => (none, s)
  | some u =>
    if userIdToUnfollow ∈ u.followedUsers then
      let u2 := { u with followedUsers := u.followedUsers.filter (fun id => id ≠ userIdToUnfollow) }
      (some u2, saveUser s currentUserId u2)
    else (some u, s)

/-- Side 2 of unfollowUser (userController lines 182-188): filter the actor
out of the target's `followers` when present, then save. -/
def unfollowSide2 (s : Store) (currentUserId userIdToUnfollow : Nat)
    (userToUnfollow : UserRec) : UserRec × Store :=
  if currentUserId ∈ userToUnfollow.followers then
    let t2 := { userToUnfollow with followers := userToUnfollow.followers.filter (fun id => id ≠ currentUserId) }
    (t2, saveUser s userIdToUnfollow t2)
  else (userToUnfollow, s)

/-- userController.unfollowUser: same guards as followUser, removal semantics. -/
def unfollowUser (s : Store) (currentUserId : Nat) (body : Option Nat) :
    FollowResult × Store :=
  match body with
  | none => (.badRequest "User ID to unfollow is required", s)
  | some userIdToUnfollow =>
    if userIdToUnfollow = currentUserId then
      (.badRequest "You cannot unfollow yourself", s)
    else
      match findById s userIdToUnfollow with
      | none => (.notFound "User to unfollow not found", s)
      | some userToUnfollow =>
        let r1 := unfollowSide1 s currentUserId userIdToUnfollow
        let r2 := unfollowSide2 r1.2 currentUserId userIdToUnfollow userToUnfollow
        (.ok (r1.1.map UserRec.followedUsers) r2.1.followers, r2.2)

/-- Outcome of a bookmark/unbookmark request, mirroring the HTTP responses. -/
inductive BookmarkResult where
  | ok (bookmarks : List Nat)
  | badRequest (msg : String)
  | notFound (msg : String)
deriving DecidableEq

/-- userController.bookmarkResource: 400 on a missing resource id, 404 on a
missing user, otherwise append to `bookmarkedResources` when absent and
answer 200 with the list. -/
def bookmarkResource (s : Store) (userId : Nat) (body : Option Nat) :
    BookmarkResult × Store :=
  match body with
  | none => (.badRequest "Resource ID is required", s)
  | some resourceId =>
    match findById s userId with
    | none => (.notFound "User not found", s)
    | some user =>
      if resourceId ∈ user.bookmarkedResources then
        (.ok user.bookmarkedResources, s)
      else
        let u2 := { user with bookmarkedResources := user.bookmarkedResources ++ [resourceId] }
        (.ok u2.bookmarkedResources, saveUser s userId u2)

/-- userController.unbookmarkResource: 400 on a missing resource id, 404 on a
missing user, otherwise filter the id out when present and answer 200. -/
def unbookmarkResource (s : Store) (userId : Nat) (body : Option Nat) :
    BookmarkResult × Store :=
  match body with
  | none => (.badRequest "Resource ID is required", s)
  | some resourceId =>
    match findById s userId with
    | none => (.notFound "User not found", s)
    | some user =>
      if resourceId ∈ user.bookmarkedResources then
        let u2 := { user with bookmarkedResources := user.bookmarkedResources.filter (fun id => id ≠ resourceId) }
        (.ok u2.bookmarkedResources, saveUser s userId u2)
      else (.ok user.bookmarkedResources, s)

/-- A Vote document: resource reference plus the two voter-id sets. -/
structure VoteRec where
  resource : Nat
  upvoters : List Nat
  downvoters : List Nat
deriving DecidableEq

/-- The Vote collection. -/
abbrev VoteStore := List VoteRec

/-- `Vote.findOne({resource})`: first Vote for the resource, if any. -/
def voteFindOne (vs : VoteStore) (resourceId : Nat) : Option VoteRec :=
  vs.find? (fun v => v.resource = resourceId)

/-- Per-resource tally step of topicController.getTopicBySlug lines 69-82:
read the Vote for the resource, creating an empty one when absent, and
return `(upvotes, downvotes)` as the set sizes. -/
def tallyForResource (vs : VoteStore) (resourceId : Nat) :
    (Nat × Nat) × VoteStore :=
  match voteFindOne vs resourceId with
  | some vote => ((vote.upvoters.length, vote.downvoters.length), vs)
  | none =>
    let vote : VoteRec := ⟨resourceId, [], []⟩
    ((vote.upvoters.length, vote.downvoters.length), vs ++ [vote])

/-- Outcome of the topic fetch read path for one resource: 200 with the two
counts, or the handler's catch-all 500. -/
inductive TallyOutcome where
  | ok (upvotes downvotes : Nat)
  | serverError (msg : String)
deriving DecidableEq

/-- Modelled from the spec: the Vote schema itself is not under src/; per §6
the store's `create` carries a uniqueness constraint on `Vote.resource` and
reports a conflict when a Vote for the resource already exists. -/
def voteCreateUnique (vs : VoteStore) (vote : VoteRec) :
    Except String VoteStore :=
  match voteFindOne vs vote.resource with
  | some _ => .error "E11000 duplicate key"
  | none => .ok (vs ++ [vote])

/-- The losing caller of the lazy-create race, per topicController
lines 69-91: its earlier `findOne` returned none, so it invokes
`Vote.create` unconditionally on the current store; the handler has no
conflict handling, so a store error reaches the outer catch, which answers
500 "Server error while fetching topic". -/
def tallyAfterStaleRead (vsNow : VoteStore) (resourceId : Nat) :
    TallyOutcome × VoteStore :=
  match voteCreateUnique vsNow ⟨resourceId, [], []⟩ with
  | .ok vs2 => (.ok 0 0, vs2)
  | .error _ => (.serverError "Server error while fetching topic", vsNow)

/-- The dual-sided follow invariant of the data model: for distinct existing
users A and B, A is in followers(B) exactly when B is in followedUsers(A). -/
def followConsistent (s : Store) : Prop :=
  ∀ aId bId a b, aId ≠ bId → findById s aId = some a → findById s bId = some b →
    (aId ∈ b.followers ↔ bId ∈ a.followedUsers)

/-- Executable check of the follow invariant over the stored records. -/
def followConsistentB (s : Store) : Bool :=
  s.all fun p => s.all fun q =>
    p.1 == q.1 || (decide (p.1 ∈ q.2.followers) == decide (q.1 ∈ p.2.followedUsers))

/-! ### Store lemmas -/

theorem findById_nil (i : Nat) : findById [] i = none := rfl

theorem findById_cons (p : Nat × UserRec) (t : Store) (i : Nat) :
    findById (p :: t) i = if p.1 = i then some p.2 else findById t i := by
  by_cases hp : p.1 = i
  · rw [findById, List.find?_cons_of_pos _ (by simpa using hp), if_pos hp]
    rfl
  · rw [findById, List.find?_cons_of_neg _ (by simpa using hp), if_neg hp]
    rfl

theorem saveUser_nil (i : Nat) (u : UserRec) : saveUser [] i u = [] := rfl

theorem saveUser_cons (p : Nat × UserRec) (t : Store) (i : Nat) (u : UserRec) :
    saveUser (p :: t) i u = (if p.1 = i then (i, u) else p) :: saveUser t i u := rfl

theorem findById_eq_none_of_not_mem {s : Store} {i : Nat}
    (h : i ∉ s.map Prod.fst) : findById s i = none := by
  induction s with
  | nil => rfl
  | cons p t ih =>
    simp only [List.map_cons, List.mem_cons, not_or] at h
    rw [findById_cons, if_neg (fun hh => h.1 hh.symm)]
    exact ih h.2

theorem saveUser_not_found {s : Store} {i : Nat} {u : UserRec}
    (h : findById s i = none) : saveUser s i u = s := by
  induction s with
  | nil => rfl
  | cons p t ih =>
    rw [findById_cons] at h
    by_cases hp : p.1 = i
    · simp [hp] at h
    · rw [if_neg hp] at h
      rw [saveUser_cons, if_neg hp, ih h]

theorem findById_saveUser_self {s : Store} {i : Nat} {u v : UserRec}
    (h : findById s i = some v) : findById (saveUser s i u) i = some u := by
  induction s with
  | nil => simp [findById_nil] at h
  | cons p t ih =>
    rw [findById_cons] at h
    rw [saveUser_cons]
    by_cases hp : p.1 = i
    · rw [if_pos hp, findById_cons, if_pos rfl]
    · rw [if_neg hp] at h
      rw [if_neg hp, findById_cons, if_neg hp]
      exact ih h

theorem findById_saveUser_ne {s : Store} {i j : Nat} {u : UserRec}
    (h : j ≠ i) : findById (saveUser s i u) j = findById s j := by
  induction s with
  | nil => rfl
  | cons p t ih =>
    rw [saveUser_cons]
    by_cases hp : p.1 = i
    · rw [if_pos hp, findById_cons, findById_cons, hp,
        if_neg (fun hh => h hh.symm), if_neg (fun hh => h hh.symm)]
      exact ih
    · rw [if_neg hp, findById_cons, findById_cons]
      by_cases hq : p.1 = j
      · rw [if_pos hq, if_pos hq]
      · rw [if_neg hq, if_neg hq]
        exact ih

theorem saveUser_map_fst (s : Store) (i : Nat) (u : UserRec) :
    (saveUser s i u).map Prod.fst = s.map Prod.fst := by
  induction s with
  | nil => rfl
  | cons p t ih =>
    rw [saveUser_cons, List.map_cons, List.map_cons, ih]
    by_cases hp : p.1 = i
    · rw [if_pos hp, hp]
    · rw [if_neg hp]

theorem storeWF_saveUser {s : Store} {i : Nat} {u : UserRec}
    (h : storeWF s) : storeWF (saveUser s i u) := by
  unfold storeWF
  rw [saveUser_map_fst]
  exact h

theorem saveUser_saveUser (s : Store) (i : Nat) (u v : UserRec) :
    saveUser (saveUser s i u) i v = saveUser s i v := by
  induction s with
  | nil => rfl
  | cons p t ih =>
    by_cases hp : p.1 = i <;> simp [saveUser_cons, hp, ih]

theorem saveUser_comm {s : Store} {i j : Nat} (u v : UserRec)
    (h : i ≠ j) : saveUser (saveUser s i u) j v = saveUser (saveUser s j v) i u := by
  induction s with
  | nil => rfl
  | cons p t ih =>
    by_cases hp : p.1 = i <;> by_cases hq : p.1 = j
    · exact absurd (hp.symm.trans hq) h
    · simp [saveUser_cons, hp, hq, ih, h, Ne.symm h]
    · simp [saveUser_cons, hp, hq, ih, h, Ne.symm h]
    · simp [saveUser_cons, hp, hq, ih]

theorem saveUser_self {s : Store} {i : Nat} {u : UserRec}
    (hwf : storeWF s) (h : findById s i = some u) : saveUser s i u = s := by
  induction s with
  | nil => rfl
  | cons p t ih =>
    rw [findById_cons] at h
    rw [saveUser_cons]
    by_cases hp : p.1 = i
    · rw [if_pos hp] at h
      have hpu : p.2 = u := Option.some_injective _ h
      have hnot : i ∉ t.map Prod.fst := by
        have hw := hwf
        simp only [storeWF, List.map_cons, List.nodup_cons] at hw
        exact hp ▸ hw.1
      rw [if_pos hp, saveUser_not_found (findById_eq_none_of_not_mem hnot),
        ← hp, ← hpu]
    · have hwt : storeWF t := by
        have hw := hwf
        simp only [storeWF, List.map_cons, List.nodup_cons] at hw
        exact hw.2
      rw [if_neg hp] at h
      rw [if_neg hp, ih hwt h]

/-! ### Claim theorems -/

/-- C3: for every user A and every store, `followUser(A,A)` answers the
explicit 400 error "You cannot follow yourself" and returns the store
unchanged — an explicit rejection, not a silent no-op, with no mutation. -/
theorem followUser_self_rejected (s : Store) (aId : Nat) :
    followUser s aId (some aId) = (.badRequest "You cannot follow yourself", s) := by
  simp [followUser]

/-- C10: for every authenticated user, a bookmark or unbookmark request with
an absent resource id answers the 400 error "Resource ID is required" and
returns the store unchanged; the result does not depend on any store
content, so the check precedes every store read or write. -/
theorem bookmark_missing_id (s : Store) (userId : Nat) :
    bookmarkResource s userId none = (.badRequest "Resource ID is required", s) ∧
    unbookmarkResource s userId none = (.badRequest "Resource ID is required", s) :=
  ⟨rfl, rfl⟩

/-- C5: for every user A and target id T that does not resolve to a User
record, `followUser(A,T)` answers the 404 error "User to follow not found"
and returns the store unchanged, so A's `followedUsers` list is untouched:
the existence check precedes any mutation. -/
theorem followUser_target_missing (s : Store) (aId tId : Nat)
    (hne : tId ≠ aId) (ht : findById s tId = none) :
    followUser s aId (some tId) = (.notFound "User to follow not found", s) := by
  simp [followUser, hne, ht]

/-- Witness for C5 at a concrete store holding only user 1. -/
theorem followUser_target_missing_witness :
    (2 : Nat) ≠ 1 ∧ findById [(1, (⟨[], [], []⟩ : UserRec))] 2 = none ∧
    followUser [(1, (⟨[], [], []⟩ : UserRec))] 1 (some 2) =
      (.notFound "User to follow not found", [(1, (⟨[], [], []⟩ : UserRec))]) :=
  ⟨by decide, rfl, followUser_target_missing _ 1 2 (by decide) rfl⟩

/-- C6: the tally step of the topic fetch-by-slug read path. When no Vote
record exists for the resource, it returns counts (0, 0) and its only side
effect is appending one Vote record with empty voter sets, so the store then
holds exactly one Vote for that resource, with empty sets. When a Vote
record exists, the counts are the sizes of its voter sets and the store is
returned unchanged. -/
theorem tally_lazy_create (vs : VoteStore) (resourceId : Nat) :
    (voteFindOne vs resourceId = none →
      tallyForResource vs resourceId =
        ((0, 0), vs ++ [(⟨resourceId, [], []⟩ : VoteRec)]) ∧
      (tallyForResource vs resourceId).2.filter
          (fun v => v.resource = resourceId) = [(⟨resourceId, [], []⟩ : VoteRec)]) ∧
    (∀ vote, voteFindOne vs resourceId = some vote →
      tallyForResource vs resourceId =
        ((vote.upvoters.length, vote.downvoters.length), vs)) := by
  constructor
  · intro hnone
    have hall : ∀ v ∈ vs, ¬ v.resource = resourceId := by
      intro v hv
      have := List.find?_eq_none.mp hnone v hv
      simpa using this
    have hfilter : vs.filter (fun v => decide (v.resource = resourceId)) = [] := by
      rw [List.filter_eq_nil_iff]
      intro v hv
      simpa using hall v hv
    constructor
    · simp [tallyForResource, hnone]
    · simp only [tallyForResource, hnone, List.filter_append]
      rw [hfilter]
      simp
  · intro vote hvote
    simp [tallyForResource, hvote]

/-- Witness for C6: an empty Vote store (lazy creation) and a store already
holding a Vote with one upvoter and two downvoters (pure read). -/
theorem tally_lazy_create_witness :
    tallyForResource [] 1 = ((0, 0), [(⟨1, [], []⟩ : VoteRec)]) ∧
    tallyForResource [(⟨1, [7], [8, 9]⟩ : VoteRec)] 1 =
      ((1, 2), [(⟨1, [7], [8, 9]⟩ : VoteRec)]) :=
  ⟨((tally_lazy_create [] 1).1 rfl).1,
   (tally_lazy_create [(⟨1, [7], [8, 9]⟩ : VoteRec)] 1).2 ⟨1, [7], [8, 9]⟩ rfl⟩

/-- C7: the code lacks the specified conflict fallback. When the losing
caller of the lazy-create race (its earlier findOne saw no Vote) calls
create while a Vote for resource 1 with one upvoter now exists, the
duplicate-key error propagates to the handler's catch and the caller gets
the 500 response with the store unchanged — not the specified fallback read
of the winner's record, which would answer counts (1, 0). -/
theorem tally_conflict_surfaces_error :
    tallyAfterStaleRead [(⟨1, [5], []⟩ : VoteRec)] 1 =
      (.serverError "Server error while fetching topic", [(⟨1, [5], []⟩ : VoteRec)]) ∧
    tallyAfterStaleRead [(⟨1, [5], []⟩ : VoteRec)] 1 ≠
      (.ok 1 0, [(⟨1, [5], []⟩ : VoteRec)]) := by
  constructor
  · rfl
  · decide

theorem bookmarkResource_mem {s : Store} {userId resourceId : Nat} {user : UserRec}
    (hu : findById s userId = some user)
    (hmem : resourceId ∈ user.bookmarkedResources) :
    bookmarkResource s userId (some resourceId) = (.ok user.bookmarkedResources, s) := by
  simp [bookmarkResource, hu, hmem]

/-- C8: for an existing user whose bookmark list respects the data-model
uniqueness invariant, bookmarking the same resource twice leaves exactly one
occurrence of it in `bookmarkedResources` (the second call answers 200 with
the same list and does not change the store), and unbookmarking a resource
that is not bookmarked answers 200 with the unchanged list and leaves the
store untouched. -/
theorem bookmark_idempotent (s : Store) (userId resourceId : Nat) (user : UserRec)
    (hu : findById s userId = some user)
    (hcnt : user.bookmarkedResources.count resourceId ≤ 1) :
    (∃ u2, findById (bookmarkResource s userId (some resourceId)).2 userId = some u2 ∧
      u2.bookmarkedResources.count resourceId = 1 ∧
      bookmarkResource (bookmarkResource s userId (some resourceId)).2 userId
          (some resourceId) =
        (.ok u2.bookmarkedResources, (bookmarkResource s userId (some resourceId)).2)) ∧
    (resourceId ∉ user.bookmarkedResources →
      unbookmarkResource s userId (some resourceId) = (.ok user.bookmarkedResources, s)) := by
  constructor
  · by_cases hmem : resourceId ∈ user.bookmarkedResources
    · refine ⟨user, ?_, ?_, ?_⟩
      · rw [bookmarkResource_mem hu hmem]
        exact hu
      · exact Nat.le_antisymm hcnt (List.count_pos_iff.mpr hmem)
      · rw [bookmarkResource_mem hu hmem]
        exact bookmarkResource_mem hu hmem
    · have hzero : user.bookmarkedResources.count resourceId = 0 :=
        List.count_eq_zero.mpr hmem
      refine ⟨{ user with bookmarkedResources := user.bookmarkedResources ++ [resourceId] },
        ?_, ?_, ?_⟩
      · simp only [bookmarkResource, hu, if_neg hmem]
        exact findById_saveUser_self hu
      · simp [List.count_append, hzero]
      · have hfind : findById (bookmarkResource s userId (some resourceId)).2 userId =
            some { user with bookmarkedResources := user.bookmarkedResources ++ [resourceId] } := by
          simp only [bookmarkResource, hu, if_neg hmem]
          exact findById_saveUser_self hu
        exact bookmarkResource_mem hfind (by simp)
  · intro hmem
    simp [unbookmarkResource, hu, hmem]

/-- Witness for C8 with user 1 holding no bookmarks and resource 5. -/
theorem bookmark_idempotent_witness :
    findById [(1, (⟨[], [], []⟩ : UserRec))] 1 = some ⟨[], [], []⟩ ∧
    (([] : List Nat).count 5 ≤ 1) ∧
    ((∃ u2, findById (bookmarkResource [(1, (⟨[], [], []⟩ : UserRec))] 1 (some 5)).2 1 = some u2 ∧
      u2.bookmarkedResources.count 5 = 1 ∧
      bookmarkResource (bookmarkResource [(1, (⟨[], [], []⟩ : UserRec))] 1 (some 5)).2 1
          (some 5) =
        (.ok u2.bookmarkedResources,
          (bookmarkResource [(1, (⟨[], [], []⟩ : UserRec))] 1 (some 5)).2)) ∧
    ((5 : Nat) ∉ ([] : List Nat) →
      unbookmarkResource [(1, (⟨[], [], []⟩ : UserRec))] 1 (some 5) =
        (.ok [], [(1, (⟨[], [], []⟩ : UserRec))]))) :=
  ⟨rfl, by decide, bookmark_idempotent _ 1 5 ⟨[], [], []⟩ rfl (by decide)⟩

/-- C9: retry-to-convergence of followUser. From a partially applied state
in which B is in followedUsers(A) exactly once but A is not yet in
followers(B), re-invoking `followUser(A,B)` succeeds, completes the second
side (A is appended to followers(B)) and does not duplicate the first side
(followedUsers(A) still holds exactly one occurrence of B). -/
theorem followUser_retry_converges (s : Store) (aId bId : Nat) (actor target : UserRec)
    (hne : bId ≠ aId)
    (ha : findById s aId = some actor) (hb : findById s bId = some target)
    (hcnt : actor.followedUsers.count bId = 1)
    (hnf : aId ∉ target.followers) :
    ∃ s2 a2 b2,
      followUser s aId (some bId) =
        (.ok (some actor.followedUsers) (target.followers ++ [aId]), s2) ∧
      findById s2 aId = some a2 ∧ findById s2 bId = some b2 ∧
      a2.followedUsers.count bId = 1 ∧ aId ∈ b2.followers := by
  have hmem : bId ∈ actor.followedUsers :=
    List.count_pos_iff.mp (by omega)
  refine ⟨saveUser s bId { target with followers := target.followers ++ [aId] },
    actor, { target with followers := target.followers ++ [aId] }, ?_, ?_, ?_, hcnt, ?_⟩
  · simp [followUser, followSide1, followSide2, ha, hb, hne, hmem, hnf]
  · rw [findById_saveUser_ne (fun hh => hne hh.symm)]
    exact ha
  · exact findById_saveUser_self hb
  · simp

/-- Witness for C9 at the one-sided state where user 1's followedUsers
already holds 2 but user 2's followers is still empty. -/
theorem followUser_retry_converges_witness :
    (2 : Nat) ≠ 1 ∧
    findById [(1, (⟨[2], [], []⟩ : UserRec)), (2, (⟨[], [], []⟩ : UserRec))] 1 =
      some ⟨[2], [], []⟩ ∧
    findById [(1, (⟨[2], [], []⟩ : UserRec)), (2, (⟨[], [], []⟩ : UserRec))] 2 =
      some ⟨[], [], []⟩ ∧
    (∃ s2 a2 b2,
      followUser [(1, (⟨[2], [], []⟩ : UserRec)), (2, (⟨[], [], []⟩ : UserRec))] 1 (some 2) =
        (.ok (some [2]) ([] ++ [1]), s2) ∧
      findById s2 1 = some a2 ∧ findById s2 2 = some b2 ∧
      a2.followedUsers.count 2 = 1 ∧ (1 : Nat) ∈ b2.followers) :=
  ⟨by decide, rfl, rfl,
    followUser_retry_converges _ 1 2 ⟨[2], [], []⟩ ⟨[], [], []⟩
      (by decide) rfl rfl (by decide) (by decide)⟩

/-! ### Branch lemmas for followUser / unfollowUser -/

theorem followUser_eq {s : Store} {aId bId : Nat} {target : UserRec}
    (hne : bId ≠ aId) (hb : findById s bId = some target) :
    followUser s aId (some bId) =
      (.ok ((followSide1 s aId bId).1.map UserRec.followedUsers)
        (followSide2 (followSide1 s aId bId).2 aId bId target).1.followers,
       (followSide2 (followSide1 s aId bId).2 aId bId target).2) := by
  simp [followUser, hne, hb]

theorem followSide1_mem {s : Store} {aId bId : Nat} {actor : UserRec}
    (ha : findById s aId = some actor) (hmem : bId ∈ actor.followedUsers) :
    followSide1 s aId bId = (some actor, s) := by
  simp [followSide1, ha, hmem]

theorem followSide1_not_mem {s : Store} {aId bId : Nat} {actor : UserRec}
    (ha : findById s aId = some actor) (hmem : bId ∉ actor.followedUsers) :
    followSide1 s aId bId =
      (some { actor with followedUsers := actor.followedUsers ++ [bId] },
       saveUser s aId { actor with followedUsers := actor.followedUsers ++ [bId] }) := by
  simp [followSide1, ha, hmem]

theorem followSide2_mem {s : Store} {aId bId : Nat} {target : UserRec}
    (hmem : aId ∈ target.followers) :
    followSide2 s aId bId target = (target, s) := by
  simp [followSide2, hmem]

theorem followSide2_not_mem {s : Store} {aId bId : Nat} {target : UserRec}
    (hmem : aId ∉ target.followers) :
    followSide2 s aId bId target =
      ({ target with followers := target.followers ++ [aId] },
       saveUser s bId { target with followers := target.followers ++ [aId] }) := by
  simp [followSide2, hmem]

theorem unfollowUser_eq {s : Store} {aId bId : Nat} {target : UserRec}
    (hne : bId ≠ aId) (hb : findById s bId = some target) :
    unfollowUser s aId (some bId) =
      (.ok ((unfollowSide1 s aId bId).1.map UserRec.followedUsers)
        (unfollowSide2 (unfollowSide1 s aId bId).2 aId bId target).1.followers,
       (unfollowSide2 (unfollowSide1 s aId bId).2 aId bId target).2) := by
  simp [unfollowUser, hne, hb]

theorem unfollowSide1_mem {s : Store} {aId bId : Nat} {actor : UserRec}
    (ha : findById s aId = some actor) (hmem : bId ∈ actor.followedUsers) :
    unfollowSide1 s aId bId =
      (some { actor with followedUsers := actor.followedUsers.filter (fun id => id ≠ bId) },
       saveUser s aId { actor with followedUsers := actor.followedUsers.filter (fun id => id ≠ bId) }) := by
  simp [unfollowSide1, ha, hmem]

theorem unfollowSide1_not_mem {s : Store} {aId bId : Nat} {actor : UserRec}
    (ha : findById s aId = some actor) (hmem : bId ∉ actor.followedUsers) :
    unfollowSide1 s aId bId = (some actor, s) := by
  simp [unfollowSide1, ha, hmem]

theorem unfollowSide2_mem {s : Store} {aId bId : Nat} {target : UserRec}
    (hmem : aId ∈ target.followers) :
    unfollowSide2 s aId bId target =
      ({ target with followers := target.followers.filter (fun id => id ≠ aId) },
       saveUser s bId { target with followers := target.followers.filter (fun id => id ≠ aId) }) := by
  simp [unfollowSide2, hmem]

theorem unfollowSide2_not_mem {s : Store} {aId bId : Nat} {target : UserRec}
    (hmem : aId ∉ target.followers) :
    unfollowSide2 s aId bId target = (target, s) := by
  simp [unfollowSide2, hmem]

/-- C2: for distinct existing users A and B whose lists respect the
data-model uniqueness invariant, calling `followUser(A,B)` twice produces
exactly the final state of calling it once (the second call returns the
same store), no duplicate entries appear (B occurs exactly once in
followedUsers(A), A exactly once in followers(B)), and the second call
answers 200, not an error. -/
theorem followUser_idempotent (s : Store) (aId bId : Nat) (actor target : UserRec)
    (hne : bId ≠ aId)
    (ha : findById s aId = some actor) (hb : findById s bId = some target)
    (hca : actor.followedUsers.count bId ≤ 1)
    (hcb : target.followers.count aId ≤ 1) :
    ∃ a2 b2,
      findById (followUser s aId (some bId)).2 aId = some a2 ∧
      findById (followUser s aId (some bId)).2 bId = some b2 ∧
      a2.followedUsers.count bId = 1 ∧
      b2.followers.count aId = 1 ∧
      followUser (followUser s aId (some bId)).2 aId (some bId) =
        (.ok (some a2.followedUsers) b2.followers, (followUser s aId (some bId)).2) := by
  have hane : aId ≠ bId := fun hh => hne hh.symm
  by_cases hm1 : bId ∈ actor.followedUsers
  · have hc1 : actor.followedUsers.count bId = 1 :=
      Nat.le_antisymm hca (List.count_pos_iff.mpr hm1)
    by_cases hm2 : aId ∈ target.followers
    · have hstate : followUser s aId (some bId) = (.ok (some actor.followedUsers) target.followers, s) := by
        rw [followUser_eq hne hb, followSide1_mem ha hm1, followSide2_mem hm2]
        rfl
      refine ⟨actor, target, ?_, ?_, hc1,
        Nat.le_antisymm hcb (List.count_pos_iff.mpr hm2), ?_⟩
      · rw [hstate]; exact ha
      · rw [hstate]; exact hb
      · rw [hstate]
        rw [followUser_eq hne hb, followSide1_mem ha hm1, followSide2_mem hm2]
        rfl
    · have hstate : followUser s aId (some bId) =
          (.ok (some actor.followedUsers) (target.followers ++ [aId]),
           saveUser s bId { target with followers := target.followers ++ [aId] }) := by
        rw [followUser_eq hne hb, followSide1_mem ha hm1, followSide2_not_mem hm2]
        rfl
      set t2 : UserRec := { target with followers := target.followers ++ [aId] } with ht2
      have hfa : findById (followUser s aId (some bId)).2 aId = some actor := by
        rw [hstate]
        rw [findById_saveUser_ne hane]
        exact ha
      have hfb : findById (followUser s aId (some bId)).2 bId = some t2 := by
        rw [hstate]
        exact findById_saveUser_self hb
      refine ⟨actor, t2, hfa, hfb, hc1, ?_, ?_⟩
      · simp [ht2, List.count_append, List.count_eq_zero.mpr hm2]
      · rw [followUser_eq hne hfb, followSide1_mem hfa hm1,
          followSide2_mem (by simp [ht2])]
        rfl
  · have ha2 : followSide1 s aId bId =
        (some { actor with followedUsers := actor.followedUsers ++ [bId] },
         saveUser s aId { actor with followedUsers := actor.followedUsers ++ [bId] }) :=
      followSide1_not_mem ha hm1
    set a2 : UserRec := { actor with followedUsers := actor.followedUsers ++ [bId] } with ha2def
    have hc1 : a2.followedUsers.count bId = 1 := by
      simp [ha2def, List.count_append, List.count_eq_zero.mpr hm1]
    have hs1a : findById (saveUser s aId a2) aId = some a2 := findById_saveUser_self ha
    have hs1b : findById (saveUser s aId a2) bId = some target := by
      rw [findById_saveUser_ne hne]
      exact hb
    by_cases hm2 : aId ∈ target.followers
    · have hstate : followUser s aId (some bId) =
          (.ok (some a2.followedUsers) target.followers, saveUser s aId a2) := by
        rw [followUser_eq hne hb, ha2, followSide2_mem hm2]
        rfl
      refine ⟨a2, target, ?_, ?_, hc1,
        Nat.le_antisymm hcb (List.count_pos_iff.mpr hm2), ?_⟩
      · rw [hstate]; exact hs1a
      · rw [hstate]; exact hs1b
      · rw [hstate]
        rw [followUser_eq hne hs1b, followSide1_mem hs1a (by simp [ha2def]),
          followSide2_mem hm2]
        rfl
    · have hstate : followUser s aId (some bId) =
          (.ok (some a2.followedUsers) (target.followers ++ [aId]),
           saveUser (saveUser s aId a2) bId { target with followers := target.followers ++ [aId] }) := by
        rw [followUser_eq hne hb, ha2, followSide2_not_mem hm2]
        rfl
      set t2 : UserRec := { target with followers := target.followers ++ [aId] } with ht2
      have hfa : findById (followUser s aId (some bId)).2 aId = some a2 := by
        rw [hstate, findById_saveUser_ne hane]
        exact hs1a
      have hfb : findById (followUser s aId (some bId)).2 bId = some t2 := by
        rw [hstate]
        exact findById_saveUser_self hs1b
      refine ⟨a2, t2, hfa, hfb, hc1, ?_, ?_⟩
      · simp [ht2, List.count_append, List.count_eq_zero.mpr hm2]
      · rw [followUser_eq hne hfb, followSide1_mem hfa (by simp [ha2def]),
          followSide2_mem (by simp [ht2])]
        rfl

/-- Witness for C2 at two fresh users 1 and 2. -/
theorem followUser_idempotent_witness :
    (2 : Nat) ≠ 1 ∧
    findById [(1, (⟨[], [], []⟩ : UserRec)), (2, (⟨[], [], []⟩ : UserRec))] 1 =
      some ⟨[], [], []⟩ ∧
    findById [(1, (⟨[], [], []⟩ : UserRec)), (2, (⟨[], [], []⟩ : UserRec))] 2 =
      some ⟨[], [], []⟩ ∧
    (∃ a2 b2,
      findById (followUser [(1, (⟨[], [], []⟩ : UserRec)), (2, (⟨[], [], []⟩ : UserRec))] 1 (some 2)).2 1 = some a2 ∧
      findById (followUser [(1, (⟨[], [], []⟩ : UserRec)), (2, (⟨[], [], []⟩ : UserRec))] 1 (some 2)).2 2 = some b2 ∧
      a2.followedUsers.count 2 = 1 ∧
      b2.followers.count 1 = 1 ∧
      followUser (followUser [(1, (⟨[], [], []⟩ : UserRec)), (2, (⟨[], [], []⟩ : UserRec))] 1 (some 2)).2 1 (some 2) =
        (.ok (some a2.followedUsers) b2.followers,
         (followUser [(1, (⟨[], [], []⟩ : UserRec)), (2, (⟨[], [], []⟩ : UserRec))] 1 (some 2)).2)) :=
  ⟨by decide, rfl, rfl,
    followUser_idempotent _ 1 2 ⟨[], [], []⟩ ⟨[], [], []⟩
      (by decide) rfl rfl (by decide) (by decide)⟩

/-- C4 counterexample: in the consistent state where user 1 already follows
user 2, `followUser(1,2)` is a no-op but `unfollowUser(1,2)` then removes
the edge, so the round trip does not restore the pre-follow state. -/
theorem follow_unfollow_roundtrip_counterexample :
    ¬ ((unfollowUser
          (followUser [(1, (⟨[2], [], []⟩ : UserRec)), (2, (⟨[], [1], []⟩ : UserRec))]
            1 (some 2)).2 1 (some 2)).2
        = [(1, (⟨[2], [], []⟩ : UserRec)), (2, (⟨[], [1], []⟩ : UserRec))]) := by
  decide

/-- C4 (amended): for distinct existing users A and B in a store with unique
ids, starting from a state in which B is not yet in followedUsers(A) and A
is not in followers(B), `followUser(A,B)` followed by `unfollowUser(A,B)`
restores exactly the pre-follow store. -/
theorem follow_unfollow_roundtrip (s : Store) (aId bId : Nat) (actor target : UserRec)
    (hwf : storeWF s) (hne : bId ≠ aId)
    (ha : findById s aId = some actor) (hb : findById s bId = some target)
    (hfa : bId ∉ actor.followedUsers) (hfb : aId ∉ target.followers) :
    (unfollowUser (followUser s aId (some bId)).2 aId (some bId)).2 = s := by
  have hane : aId ≠ bId := fun hh => hne hh.symm
  set a2 : UserRec := { actor with followedUsers := actor.followedUsers ++ [bId] } with ha2
  set t2 : UserRec := { target with followers := target.followers ++ [aId] } with ht2
  have hstate : (followUser s aId (some bId)).2 = saveUser (saveUser s aId a2) bId t2 := by
    rw [followUser_eq hne hb, followSide1_not_mem ha hfa, followSide2_not_mem hfb]
  have hs1b : findById (saveUser s aId a2) bId = some target := by
    rw [findById_saveUser_ne hne]
    exact hb
  have hfa2 : findById (saveUser (saveUser s aId a2) bId t2) aId = some a2 := by
    rw [findById_saveUser_ne hane]
    exact findById_saveUser_self ha
  have hfb2 : findById (saveUser (saveUser s aId a2) bId t2) bId = some t2 :=
    findById_saveUser_self hs1b
  have hu2 : { a2 with followedUsers := a2.followedUsers.filter (fun id => id ≠ bId) } = actor := by
    have hfu : a2.followedUsers.filter (fun id => id ≠ bId) = actor.followedUsers := by
      rw [ha2]
      show (actor.followedUsers ++ [bId]).filter (fun id => id ≠ bId) = actor.followedUsers
      rw [List.filter_append]
      have h1 : actor.followedUsers.filter (fun id => id ≠ bId) = actor.followedUsers :=
        List.filter_eq_self.mpr (fun x hx => by
          simpa using fun hh : x = bId => hfa (hh ▸ hx))
      have h2 : ([bId] : List Nat).filter (fun id => id ≠ bId) = [] := by simp
      rw [h1, h2, List.append_nil]
    rw [hfu, ha2]
  have hv2 : { t2 with followers := t2.followers.filter (fun id => id ≠ aId) } = target := by
    have hfo : t2.followers.filter (fun id => id ≠ aId) = target.followers := by
      rw [ht2]
      show (target.followers ++ [aId]).filter (fun id => id ≠ aId) = target.followers
      rw [List.filter_append]
      have h1 : target.followers.filter (fun id => id ≠ aId) = target.followers :=
        List.filter_eq_self.mpr (fun x hx => by
          simpa using fun hh : x = aId => hfb (hh ▸ hx))
      have h2 : ([aId] : List Nat).filter (fun id => id ≠ aId) = [] := by simp
      rw [h1, h2, List.append_nil]
    rw [hfo, ht2]
  rw [hstate, unfollowUser_eq hne hfb2,
    unfollowSide1_mem hfa2 (by rw [ha2]; simp),
    unfollowSide2_mem (by rw [ht2]; simp), hu2, hv2]
  show saveUser (saveUser (saveUser (saveUser s aId a2) bId t2) aId actor) bId target = s
  rw [saveUser_comm t2 actor hne, saveUser_saveUser, saveUser_saveUser,
    saveUser_self (storeWF_saveUser hwf)
      (by rw [findById_saveUser_ne hne]; exact hb),
    saveUser_self hwf ha]

/-- Witness for C4 (amended) at two fresh users 1 and 2. -/
theorem follow_unfollow_roundtrip_witness :
    storeWF [(1, (⟨[], [], []⟩ : UserRec)), (2, (⟨[], [], []⟩ : UserRec))] ∧
    (2 : Nat) ≠ 1 ∧
    (unfollowUser
        (followUser [(1, (⟨[], [], []⟩ : UserRec)), (2, (⟨[], [], []⟩ : UserRec))]
          1 (some 2)).2 1 (some 2)).2
      = [(1, (⟨[], [], []⟩ : UserRec)), (2, (⟨[], [], []⟩ : UserRec))] :=
  ⟨by unfold storeWF; decide, by decide,
    follow_unfollow_roundtrip _ 1 2 ⟨[], [], []⟩ ⟨[], [], []⟩
      (by unfold storeWF; decide) (by decide) rfl rfl (by decide) (by decide)⟩

/-! ### Lemmas for the follow invariant -/

theorem followSide1_none {s : Store} {aId bId : Nat}
    (ha : findById s aId = none) : followSide1 s aId bId = (none, s) := by
  simp [followSide1, ha]

theorem unfollowSide1_none {s : Store} {aId bId : Nat}
    (ha : findById s aId = none) : unfollowSide1 s aId bId = (none, s) := by
  simp [unfollowSide1, ha]

theorem mem_of_findById {s : Store} {i : Nat} {u : UserRec}
    (h : findById s i = some u) : (i, u) ∈ s := by
  induction s with
  | nil => simp [findById_nil] at h
  | cons p t ih =>
    rcases p with ⟨p1, p2⟩
    rw [findById_cons] at h
    by_cases hp : p1 = i
    · subst hp
      rw [if_pos rfl] at h
      have h2 : p2 = u := Option.some.inj h
      subst h2
      exact List.mem_cons_self _ _
    · rw [if_neg hp] at h
      exact List.mem_cons_of_mem _ (ih h)

theorem followConsistent_of_B {s : Store} (h : followConsistentB s = true) :
    followConsistent s := by
  intro aId bId a b hne ha hb
  have hpa := mem_of_findById ha
  have hpb := mem_of_findById hb
  have h1 := (List.all_eq_true.mp h) _ hpa
  have h2 := (List.all_eq_true.mp h1) _ hpb
  simp only [Bool.or_eq_true, beq_iff_eq, decide_eq_decide] at h2
  rcases h2 with h2 | h2
  · exact absurd h2 hne
  · exact h2

theorem consistent_push_follower_only {s : Store} (hcons : followConsistent s)
    {aId bId : Nat} {target : UserRec}
    (hb : findById s bId = some target) (hnone : findById s aId = none) :
    followConsistent
      (saveUser s bId { target with followers := target.followers ++ [aId] }) := by
  intro x y xr yr hxy hx hy
  by_cases hyb : y = bId
  · subst hyb
    have hyr : yr = { target with followers := target.followers ++ [aId] } :=
      Option.some.inj (hy.symm.trans (findById_saveUser_self hb))
    rw [findById_saveUser_ne hxy] at hx
    by_cases hxa : x = aId
    · subst hxa
      rw [hnone] at hx
      exact Option.noConfusion hx
    · have base := hcons x y xr target hxy hx hb
      rw [hyr]
      simp only [List.mem_append, List.mem_singleton]
      constructor
      · rintro (hmem | rfl)
        · exact base.mp hmem
        · exact absurd rfl hxa
      · intro hmem
        exact Or.inl (base.mpr hmem)
  · rw [findById_saveUser_ne hyb] at hy
    by_cases hxb : x = bId
    · subst hxb
      have hxr : xr = { target with followers := target.followers ++ [aId] } :=
        Option.some.inj (hx.symm.trans (findById_saveUser_self hb))
      rw [hxr]
      simpa using hcons x y target yr hxy hb hy
    · rw [findById_saveUser_ne hxb] at hx
      exact hcons x y xr yr hxy hx hy

theorem consistent_push_both {s : Store} (hcons : followConsistent s)
    {aId bId : Nat} {actor target : UserRec} (hne : bId ≠ aId)
    (ha : findById s aId = some actor) (hb : findById s bId = some target) :
    followConsistent
      (saveUser (saveUser s aId { actor with followedUsers := actor.followedUsers ++ [bId] })
        bId { target with followers := target.followers ++ [aId] }) := by
  have hane : aId ≠ bId := fun hh => hne hh.symm
  have hprev : findById
      (saveUser s aId { actor with followedUsers := actor.followedUsers ++ [bId] }) bId =
      some target := by
    rw [findById_saveUser_ne hne]
    exact hb
  have hfa : findById
      (saveUser (saveUser s aId { actor with followedUsers := actor.followedUsers ++ [bId] })
        bId { target with followers := target.followers ++ [aId] }) aId =
      some { actor with followedUsers := actor.followedUsers ++ [bId] } := by
    rw [findById_saveUser_ne hane]
    exact findById_saveUser_self ha
  have hfb : findById
      (saveUser (saveUser s aId { actor with followedUsers := actor.followedUsers ++ [bId] })
        bId { target with followers := target.followers ++ [aId] }) bId =
      some { target with followers := target.followers ++ [aId] } :=
    findById_saveUser_self hprev
  intro x y xr yr hxy hx hy
  by_cases hxa : x = aId
  · subst hxa
    have hxr := Option.some.inj (hx.symm.trans hfa)
    by_cases hyb : y = bId
    · subst hyb
      have hyr := Option.some.inj (hy.symm.trans hfb)
      rw [hxr, hyr]
      simp
    · rw [findById_saveUser_ne hyb, findById_saveUser_ne (fun hh => hxy hh.symm)] at hy
      have base := hcons x y actor yr hxy ha hy
      rw [hxr]
      simp only [List.mem_append, List.mem_singleton]
      constructor
      · intro hmem
        exact Or.inl (base.mp hmem)
      · rintro (hmem | rfl)
        · exact base.mpr hmem
        · exact absurd rfl hyb
  · by_cases hxb : x = bId
    · subst hxb
      have hxr := Option.some.inj (hx.symm.trans hfb)
      by_cases hya : y = aId
      · subst hya
        have hyr := Option.some.inj (hy.symm.trans hfa)
        rw [hxr, hyr]
        simpa using hcons x y target actor hxy hb ha
      · rw [findById_saveUser_ne (fun hh => hxy hh.symm), findById_saveUser_ne hya] at hy
        rw [hxr]
        simpa using hcons x y target yr hxy hb hy
    · rw [findById_saveUser_ne hxb, findById_saveUser_ne hxa] at hx
      by_cases hya : y = aId
      · subst hya
        have hyr := Option.some.inj (hy.symm.trans hfa)
        rw [hyr]
        simpa using hcons x y xr actor hxy hx ha
      · by_cases hyb : y = bId
        · subst hyb
          have hyr := Option.some.inj (hy.symm.trans hfb)
          have base := hcons x y xr target hxy hx hb
          rw [hyr]
          simp only [List.mem_append, List.mem_singleton]
          constructor
          · rintro (hmem | rfl)
            · exact base.mp hmem
            · exact absurd rfl hxa
          · intro hmem
            exact Or.inl (base.mpr hmem)
        · rw [findById_saveUser_ne hyb, findById_saveUser_ne hya] at hy
          exact hcons x y xr yr hxy hx hy

theorem consistent_filter_follower_only {s : Store} (hcons : followConsistent s)
    {aId bId : Nat} {target : UserRec}
    (hb : findById s bId = some target) (hnone : findById s aId = none) :
    followConsistent
      (saveUser s bId
        { target with followers := target.followers.filter (fun id => id ≠ aId) }) := by
  intro x y xr yr hxy hx hy
  by_cases hyb : y = bId
  · subst hyb
    have hyr := Option.some.inj (hy.symm.trans (findById_saveUser_self hb))
    rw [findById_saveUser_ne hxy] at hx
    by_cases hxa : x = aId
    · subst hxa
      rw [hnone] at hx
      exact Option.noConfusion hx
    · have base := hcons x y xr target hxy hx hb
      rw [hyr]
      simp only [List.mem_filter, decide_eq_true_eq]
      constructor
      · rintro ⟨hmem, _⟩
        exact base.mp hmem
      · intro hmem
        exact ⟨base.mpr hmem, hxa⟩
  · rw [findById_saveUser_ne hyb] at hy
    by_cases hxb : x = bId
    · subst hxb
      have hxr := Option.some.inj (hx.symm.trans (findById_saveUser_self hb))
      rw [hxr]
      simpa using hcons x y target yr hxy hb hy
    · rw [findById_saveUser_ne hxb] at hx
      exact hcons x y xr yr hxy hx hy

theorem consistent_filter_both {s : Store} (hcons : followConsistent s)
    {aId bId : Nat} {actor target : UserRec} (hne : bId ≠ aId)
    (ha : findById s aId = some actor) (hb : findById s bId = some target) :
    followConsistent
      (saveUser
        (saveUser s aId
          { actor with followedUsers := actor.followedUsers.filter (fun id => id ≠ bId) })
        bId
        { target with followers := target.followers.filter (fun id => id ≠ aId) }) := by
  have hane : aId ≠ bId := fun hh => hne hh.symm
  have hprev : findById
      (saveUser s aId
        { actor with followedUsers := actor.followedUsers.filter (fun id => id ≠ bId) }) bId =
      some target := by
    rw [findById_saveUser_ne hne]
    exact hb
  have hfa : findById
      (saveUser
        (saveUser s aId
          { actor with followedUsers := actor.followedUsers.filter (fun id => id ≠ bId) })
        bId
        { target with followers := target.followers.filter (fun id => id ≠ aId) }) aId =
      some { actor with followedUsers := actor.followedUsers.filter (fun id => id ≠ bId) } := by
    rw [findById_saveUser_ne hane]
    exact findById_saveUser_self ha
  have hfb : findById
      (saveUser
        (saveUser s aId
          { actor with followedUsers := actor.followedUsers.filter (fun id => id ≠ bId) })
        bId
        { target with followers := target.followers.filter (fun id => id ≠ aId) }) bId =
      some { target with followers := target.followers.filter (fun id => id ≠ aId) } :=
    findById_saveUser_self hprev
  intro x y xr yr hxy hx hy
  by_cases hxa : x = aId
  · subst hxa
    have hxr := Option.some.inj (hx.symm.trans hfa)
    by_cases hyb : y = bId
    · subst hyb
      have hyr := Option.some.inj (hy.symm.trans hfb)
      rw [hxr, hyr]
      simp
    · rw [findById_saveUser_ne hyb, findById_saveUser_ne (fun hh => hxy hh.symm)] at hy
      have base := hcons x y actor yr hxy ha hy
      rw [hxr]
      simp only [List.mem_filter, decide_eq_true_eq]
      constructor
      · intro hmem
        exact ⟨base.mp hmem, hyb⟩
      · rintro ⟨hmem, _⟩
        exact base.mpr hmem
  · by_cases hxb : x = bId
    · subst hxb
      have hxr := Option.some.inj (hx.symm.trans hfb)
      by_cases hya : y = aId
      · subst hya
        have hyr := Option.some.inj (hy.symm.trans hfa)
        rw [hxr, hyr]
        simpa using hcons x y target actor hxy hb ha
      · rw [findById_saveUser_ne (fun hh => hxy hh.symm), findById_saveUser_ne hya] at hy
        rw [hxr]
        simpa using hcons x y target yr hxy hb hy
    · rw [findById_saveUser_ne hxb, findById_saveUser_ne hxa] at hx
      by_cases hya : y = aId
      · subst hya
        have hyr := Option.some.inj (hy.symm.trans hfa)
        rw [hyr]
        simpa using hcons x y xr actor hxy hx ha
      · by_cases hyb : y = bId
        · subst hyb
          have hyr := Option.some.inj (hy.symm.trans hfb)
          have base := hcons x y xr target hxy hx hb
          rw [hyr]
          simp only [List.mem_filter, decide_eq_true_eq]
          constructor
          · rintro ⟨hmem, _⟩
            exact base.mp hmem
          · intro hmem
            exact ⟨base.mpr hmem, hxa⟩
        · rw [findById_saveUser_ne hyb, findById_saveUser_ne hya] at hy
          exact hcons x y xr yr hxy hx hy

theorem followUser_preserves {s : Store} (hcons : followConsistent s)
    (aId : Nat) (body : Option Nat) :
    followConsistent (followUser s aId body).2 := by
  cases body with
  | none => exact hcons
  | some bId =>
    by_cases hba : bId = aId
    · have hstate : (followUser s aId (some bId)).2 = s := by
        simp [followUser, hba]
      rw [hstate]
      exact hcons
    · cases hb : findById s bId with
      | none =>
        have hstate : (followUser s aId (some bId)).2 = s := by
          simp [followUser, hba, hb]
        rw [hstate]
        exact hcons
      | some target =>
        cases ha : findById s aId with
        | none =>
          by_cases hm2 : aId ∈ target.followers
          · have hstate : (followUser s aId (some bId)).2 = s := by
              rw [followUser_eq hba hb, followSide1_none ha, followSide2_mem hm2]
            rw [hstate]
            exact hcons
          · have hstate : (followUser s aId (some bId)).2 =
                saveUser s bId { target with followers := target.followers ++ [aId] } := by
              rw [followUser_eq hba hb, followSide1_none ha, followSide2_not_mem hm2]
            rw [hstate]
            exact consistent_push_follower_only hcons hb ha
        | some actor =>
          have hiff := hcons aId bId actor target (fun hh => hba hh.symm) ha hb
          by_cases hm1 : bId ∈ actor.followedUsers
          · by_cases hm2 : aId ∈ target.followers
            · have hstate : (followUser s aId (some bId)).2 = s := by
                rw [followUser_eq hba hb, followSide1_mem ha hm1, followSide2_mem hm2]
              rw [hstate]
              exact hcons
            · exact absurd (hiff.mpr hm1) hm2
          · by_cases hm2 : aId ∈ target.followers
            · exact absurd (hiff.mp hm2) hm1
            · have hstate : (followUser s aId (some bId)).2 =
                  saveUser
                    (saveUser s aId
                      { actor with followedUsers := actor.followedUsers ++ [bId] })
                    bId { target with followers := target.followers ++ [aId] } := by
                rw [followUser_eq hba hb, followSide1_not_mem ha hm1,
                  followSide2_not_mem hm2]
              rw [hstate]
              exact consistent_push_both hcons hba ha hb

theorem unfollowUser_preserves {s : Store} (hcons : followConsistent s)
    (aId : Nat) (body : Option Nat) :
    followConsistent (unfollowUser s aId body).2 := by
  cases body with
  | none => exact hcons
  | some bId =>
    by_cases hba : bId = aId
    · have hstate : (unfollowUser s aId (some bId)).2 = s := by
        simp [unfollowUser, hba]
      rw [hstate]
      exact hcons
    · cases hb : findById s bId with
      | none =>
        have hstate : (unfollowUser s aId (some bId)).2 = s := by
          simp [unfollowUser, hba, hb]
        rw [hstate]
        exact hcons
      | some target =>
        cases ha : findById s aId with
        | none =>
          by_cases hm2 : aId ∈ target.followers
          · have hstate : (unfollowUser s aId (some bId)).2 =
                saveUser s bId
                  { target with followers := target.followers.filter (fun id => id ≠ aId) } := by
              rw [unfollowUser_eq hba hb, unfollowSide1_none ha, unfollowSide2_mem hm2]
            rw [hstate]
            exact consistent_filter_follower_only hcons hb ha
          · have hstate : (unfollowUser s aId (some bId)).2 = s := by
              rw [unfollowUser_eq hba hb, unfollowSide1_none ha, unfollowSide2_not_mem hm2]
            rw [hstate]
            exact hcons
        | some actor =>
          have hiff := hcons aId bId actor target (fun hh => hba hh.symm) ha hb
          by_cases hm1 : bId ∈ actor.followedUsers
          · by_cases hm2 : aId ∈ target.followers
            · have hstate : (unfollowUser s aId (some bId)).2 =
                  saveUser
                    (saveUser s aId
                      { actor with followedUsers := actor.followedUsers.filter (fun id => id ≠ bId) })
                    bId
                    { target with followers := target.followers.filter (fun id => id ≠ aId) } := by
                rw [unfollowUser_eq hba hb, unfollowSide1_mem ha hm1,
                  unfollowSide2_mem hm2]
              rw [hstate]
              exact consistent_filter_both hcons hba ha hb
            · exact absurd (hiff.mpr hm1) hm2
          · by_cases hm2 : aId ∈ target.followers
            · exact absurd (hiff.mp hm2) hm1
            · have hstate : (unfollowUser s aId (some bId)).2 = s := by
                rw [unfollowUser_eq hba hb, unfollowSide1_not_mem ha hm1,
                  unfollowSide2_not_mem hm2]
              rw [hstate]
              exact hcons

theorem followUser_both_sides {s : Store} {aId bId : Nat} {actor : UserRec}
    {fu : Option (List Nat)} {fo : List Nat} {s2 : Store}
    (ha : findById s aId = some actor)
    (h : followUser s aId (some bId) = (FollowResult.ok fu fo, s2)) :
    ∃ a2 b2, findById s2 aId = some a2 ∧ findById s2 bId = some b2 ∧
      bId ∈ a2.followedUsers ∧ aId ∈ b2.followers := by
  by_cases hba : bId = aId
  · simp [followUser, hba] at h
  · cases hb : findById s bId with
    | none => simp [followUser, hba, hb] at h
    | some target =>
      have hane : aId ≠ bId := fun hh => hba hh.symm
      have hs2 : (followUser s aId (some bId)).2 = s2 := by rw [h]
      rw [← hs2]
      by_cases hm1 : bId ∈ actor.followedUsers
      · by_cases hm2 : aId ∈ target.followers
        · have hstate : (followUser s aId (some bId)).2 = s := by
            rw [followUser_eq hba hb, followSide1_mem ha hm1, followSide2_mem hm2]
          rw [hstate]
          exact ⟨actor, target, ha, hb, hm1, hm2⟩
        · have hstate : (followUser s aId (some bId)).2 =
              saveUser s bId { target with followers := target.followers ++ [aId] } := by
            rw [followUser_eq hba hb, followSide1_mem ha hm1, followSide2_not_mem hm2]
          rw [hstate]
          refine ⟨actor, { target with followers := target.followers ++ [aId] },
            ?_, findById_saveUser_self hb, hm1, by simp⟩
          rw [findById_saveUser_ne hane]
          exact ha
      · by_cases hm2 : aId ∈ target.followers
        · have hstate : (followUser s aId (some bId)).2 =
              saveUser s aId { actor with followedUsers := actor.followedUsers ++ [bId] } := by
            rw [followUser_eq hba hb, followSide1_not_mem ha hm1, followSide2_mem hm2]
          rw [hstate]
          refine ⟨{ actor with followedUsers := actor.followedUsers ++ [bId] }, target,
            findById_saveUser_self ha, ?_, by simp, hm2⟩
          rw [findById_saveUser_ne hba]
          exact hb
        · have hstate : (followUser s aId (some bId)).2 =
              saveUser
                (saveUser s aId { actor with followedUsers := actor.followedUsers ++ [bId] })
                bId { target with followers := target.followers ++ [aId] } := by
            rw [followUser_eq hba hb, followSide1_not_mem ha hm1, followSide2_not_mem hm2]
          rw [hstate]
          refine ⟨{ actor with followedUsers := actor.followedUsers ++ [bId] },
            { target with followers := target.followers ++ [aId] }, ?_, ?_, by simp, by simp⟩
          · rw [findById_saveUser_ne hane]
            exact findById_saveUser_self ha
          · have hprev : findById
                (saveUser s aId { actor with followedUsers := actor.followedUsers ++ [bId] })
                bId = some target := by
              rw [findById_saveUser_ne hba]
              exact hb
            exact findById_saveUser_self hprev

/-- C1: the dual-sided follow invariant. From any consistent store, every
followUser and every unfollowUser call (any actor, any request body,
including all error paths) leaves the store consistent — for all distinct
existing users A and B, A is in followers(B) exactly when B is in
followedUsers(A) — and after a followUser call by an existing actor that
answers 200, both memberships of the new edge hold, never only one. -/
theorem follow_relation_never_diverges (s : Store) (hcons : followConsistent s) :
    (∀ aId body, followConsistent (followUser s aId body).2) ∧
    (∀ aId body, followConsistent (unfollowUser s aId body).2) ∧
    (∀ aId bId actor fu fo s2, findById s aId = some actor →
      followUser s aId (some bId) = (FollowResult.ok fu fo, s2) →
      ∃ a2 b2, findById s2 aId = some a2 ∧ findById s2 bId = some b2 ∧
        bId ∈ a2.followedUsers ∧ aId ∈ b2.followers) :=
  ⟨fun aId body => followUser_preserves hcons aId body,
   fun aId body => unfollowUser_preserves hcons aId body,
   fun _ _ _ _ _ _ ha h => followUser_both_sides ha h⟩

/-- Witness for C1 at the consistent store where user 1 follows user 2. -/
theorem follow_relation_never_diverges_witness :
    followConsistent [(1, (⟨[2], [], []⟩ : UserRec)), (2, (⟨[], [1], []⟩ : UserRec))] ∧
    ((∀ aId body, followConsistent
        (followUser [(1, (⟨[2], [], []⟩ : UserRec)), (2, (⟨[], [1], []⟩ : UserRec))] aId body).2) ∧
     (∀ aId body, followConsistent
        (unfollowUser [(1, (⟨[2], [], []⟩ : UserRec)), (2, (⟨[], [1], []⟩ : UserRec))] aId body).2) ∧
     (∀ aId bId actor fu fo s2,
        findById [(1, (⟨[2], [], []⟩ : UserRec)), (2, (⟨[], [1], []⟩ : UserRec))] aId = some actor →
        followUser [(1, (⟨[2], [], []⟩ : UserRec)), (2, (⟨[], [1], []⟩ : UserRec))] aId (some bId) =
          (FollowResult.ok fu fo, s2) →
        ∃ a2 b2, findById s2 aId = some a2 ∧ findById s2 bId = some b2 ∧
          bId ∈ a2.followedUsers ∧ aId ∈ b2.followers)) :=
  ⟨followConsistent_of_B (by decide),
   follow_relation_never_diverges _ (followConsistent_of_B (by decide))⟩

end Omnipedia
